import Mathlib

/-!
Verification of the spacecraft EPS power-budget simulation core.

Shallow embedding of the repository's Python sources over exact rationals:

* `eps/eps_controller.py` — `EPSController` and `route` (four-priority
  power-routing cascade).
* `eps/battery_model.py` — `BatteryModel` with forward-Euler `simulate`,
  the `_clamp` helper and per-step time-series recording (including the
  `round(time_h, 10)` label rounding, modelled exactly as Python's
  round-half-even on the tenth decimal).
* `eps_power_flow_simulation.py` — the coupled headroom-capped routing
  step `_route_step`.
* `eps/power_model.py` — `compute_charging_time`.

Python floats are modelled as exact rationals; `raise ValueError(msg)` is
modelled as `Except.error msg` carrying the static part of the message.
-/

/-- Snapshot of battery state at a single timestep
(`BatteryState` in `eps/battery_model.py`). -/
structure BatteryState where
  time_h     : ℚ
  energy_wh  : ℚ
  soc        : ℚ
  delta_e_wh : ℚ
deriving DecidableEq, Repr

/-- Complete time-series result from a battery simulation run
(`BatteryTimeSeries` in `eps/battery_model.py`). -/
structure BatteryTimeSeries where
  steps       : List BatteryState
  dt_h        : ℚ
  duration_h  : ℚ
  capacity_wh : ℚ
  eta         : ℚ
  p_excess_w  : ℚ
deriving DecidableEq, Repr

/-- Round-half-even to an integer, as Python's built-in `round` does on the
value scaled to the rounding digit. -/
def rhe (y : ℚ) : ℤ :=
  if y - ⌊y⌋ < 1/2 then ⌊y⌋
  else if 1/2 < y - ⌊y⌋ then ⌊y⌋ + 1
  else if ⌊y⌋ % 2 = 0 then ⌊y⌋ else ⌊y⌋ + 1

/-- Python's `round(t, 10)`: round-half-even at the tenth decimal place
(used on recorded snapshot times in `BatteryModel.simulate`). -/
def roundTo10 (t : ℚ) : ℚ := (rhe (t * 10 ^ 10) : ℚ) / 10 ^ 10

/-- The battery integrator (`BatteryModel` in `eps/battery_model.py`):
retained constructor parameters plus the derived initial energy. -/
structure BatteryModel where
  capacity_wh       : ℚ
  eta               : ℚ
  initial_energy_wh : ℚ
deriving DecidableEq, Repr

/-- Constructor validation of `BatteryModel.__init__`: rejects
`capacity_wh ≤ 0`, `initial_soc ∉ [0,1]`, `eta ∉ (0,1]`, and otherwise
stores `initial_energy_wh = initial_soc * capacity_wh`. -/
def BatteryModel.make (capacity_wh initial_soc eta : ℚ) :
    Except String BatteryModel :=
  if capacity_wh ≤ 0 then
    .error "Battery capacity must be positive"
  else if ¬(0 ≤ initial_soc ∧ initial_soc ≤ 1) then
    .error "Initial SoC must be in [0.0, 1.0]"
  else if ¬(0 < eta ∧ eta ≤ 1) then
    .error "Charging efficiency must be in (0.0, 1.0]"
  else
    .ok { capacity_wh := capacity_wh, eta := eta,
          initial_energy_wh := initial_soc * capacity_wh }

/-- The `_clamp` helper of `BatteryModel`: `max(0.0, min(capacity_wh, e))`. -/
def BatteryModel.clamp (m : BatteryModel) (energy_wh : ℚ) : ℚ :=
  max 0 (min m.capacity_wh energy_wh)

/-- Convert stored energy to state-of-charge (the `_to_soc` helper). -/
def BatteryModel.to_soc (m : BatteryModel) (energy_wh : ℚ) : ℚ :=
  energy_wh / m.capacity_wh

/-- The forward-Euler integration loop of `BatteryModel.simulate`:
given remaining step count, current energy and current (unrounded) time,
produce the recorded snapshots of all remaining steps.  Each snapshot
records the rounded time, the clamped energy, the recomputed SoC and the
unclamped increment `delta_e = eta * p_excess_w * dt_h` — exactly as the
Python loop body does. -/
def BatteryModel.simSteps (m : BatteryModel) (p_excess_w dt_h : ℚ) :
    ℕ → ℚ → ℚ → List BatteryState
  | 0, _, _ => []
  | n + 1, energy_wh, time_h =>
    let delta_e := m.eta * p_excess_w * dt_h
    let new_energy := m.clamp (energy_wh + delta_e)
    let new_time := time_h + dt_h
    { time_h := roundTo10 new_time,
      energy_wh := new_energy,
      soc := m.to_soc new_energy,
      delta_e_wh := delta_e } :: m.simSteps p_excess_w dt_h n new_energy new_time

/-- `BatteryModel.simulate`: argument validation (three distinct error
messages), then `n_steps = int(duration_h / dt_h)` forward-Euler steps
appended after the initial (t = 0, delta = 0) snapshot. -/
def BatteryModel.simulate (m : BatteryModel) (p_excess_w dt_h duration_h : ℚ) :
    Except String BatteryTimeSeries :=
  if dt_h ≤ 0 then
    .error "Timestep must be positive"
  else if duration_h ≤ 0 then
    .error "Duration must be positive"
  else if duration_h < dt_h then
    .error "Timestep exceeds duration"
  else
    let n_steps := (⌊duration_h / dt_h⌋).toNat
    let e0 := m.initial_energy_wh
    .ok { steps :=
            { time_h := 0, energy_wh := e0, soc := m.to_soc e0,
              delta_e_wh := 0 } ::
              m.simSteps p_excess_w dt_h n_steps e0 0,
          dt_h := dt_h, duration_h := duration_h,
          capacity_wh := m.capacity_wh, eta := m.eta,
          p_excess_w := p_excess_w }

/-- Power allocation across the four EPS sinks
(`RoutingAllocation` in `eps/eps_controller.py`). -/
structure RoutingAllocation where
  p_excess_w       : ℚ
  battery_charge_w : ℚ
  payload_w        : ℚ
  supercap_w       : ℚ
  shunt_w          : ℚ
  battery_full     : Bool
deriving DecidableEq, Repr

/-- The routing controller (`EPSController` in `eps/eps_controller.py`). -/
structure EPSController where
  soc_upper_limit : ℚ
deriving DecidableEq, Repr

/-- Constructor validation of `EPSController.__init__`:
`soc_upper_limit` must lie in `(0, 1]`. -/
def EPSController.make (soc_upper_limit : ℚ) : Except String EPSController :=
  if ¬(0 < soc_upper_limit ∧ soc_upper_limit ≤ 1) then
    .error "soc_upper_limit must be in (0.0, 1.0]"
  else
    .ok { soc_upper_limit := soc_upper_limit }

/-- `EPSController.route`: validate `current_soc ∈ [0,1]`; on a deficit
(`p_excess_w ≤ 0`) return all sinks at zero; otherwise run the strict
four-priority cascade, each priority consuming from the running
remainder. -/
def EPSController.route (c : EPSController) (p_excess_w current_soc : ℚ) :
    Except String RoutingAllocation :=
  if ¬(0 ≤ current_soc ∧ current_soc ≤ 1) then
    .error "current_soc must be in [0.0, 1.0]"
  else if p_excess_w ≤ 0 then
    .ok { p_excess_w := p_excess_w, battery_charge_w := 0, payload_w := 0,
          supercap_w := 0, shunt_w := 0,
          battery_full := decide (current_soc ≥ c.soc_upper_limit) }
  else
    let remaining := p_excess_w
    let battery_full := current_soc ≥ c.soc_upper_limit
    let battery_charge_w := if battery_full then 0 else remaining
    let remaining1 := remaining - battery_charge_w
    let payload_w : ℚ := 0
    let remaining2 := remaining1 - payload_w
    let supercap_w : ℚ := 0
    let remaining3 := remaining2 - supercap_w
    let shunt_w := remaining3
    .ok { p_excess_w := p_excess_w, battery_charge_w := battery_charge_w,
          payload_w := payload_w, supercap_w := supercap_w,
          shunt_w := shunt_w, battery_full := decide battery_full }

/-- Result of one coupled routing step
(the tuple returned by `_route_step` in `eps_power_flow_simulation.py`). -/
structure RouteStepResult where
  battery_charging_w    : ℚ
  shunt_w               : ℚ
  new_battery_energy_wh : ℚ
  p_excess_w            : ℚ
deriving DecidableEq, Repr

/-- The coupled headroom-capped routing step `_route_step` of
`eps_power_flow_simulation.py`: serve avionics from solar, cap battery
charging by the per-step headroom power, shunt the rest, and advance the
clamped battery energy. -/
def route_step (p_solar_w p_avionics_w battery_energy_wh eta capacity_wh
    dt_h : ℚ) : RouteStepResult :=
  let p_excess := p_solar_w - p_avionics_w
  let remaining := max p_excess 0
  let e_headroom_wh := capacity_wh - battery_energy_wh
  let p_charge_max := if 0 < dt_h then e_headroom_wh / (eta * dt_h) else 0
  let battery_charging_w := min remaining p_charge_max
  let remaining1 := remaining - battery_charging_w
  let shunt_w := remaining1
  let delta_e := eta * battery_charging_w * dt_h
  let new_energy := min (max (battery_energy_wh + delta_e) 0) capacity_wh
  { battery_charging_w := battery_charging_w, shunt_w := shunt_w,
    new_battery_energy_wh := new_energy, p_excess_w := p_excess }

/-- The charging-time formula `compute_charging_time` of
`eps/power_model.py`: validate `eta ∈ (0,1]` and `p_excess_w > 0`
(two distinct error messages), then return
`e_remaining_wh / (p_excess_w * eta)`. -/
def compute_charging_time (e_remaining_wh p_excess_w eta : ℚ) :
    Except String ℚ :=
  if ¬(0 < eta ∧ eta ≤ 1) then
    .error "Charging efficiency must be in (0.0, 1.0]"
  else if p_excess_w ≤ 0 then
    .error "Excess power must be positive for charging"
  else
    .ok (e_remaining_wh / (p_excess_w * eta))

/-- The repository's example battery instance: 100 Wh capacity, initial
SoC 0.70 (70 Wh stored), charging efficiency 0.9 — the values of
`eps/config.py` used by the documented charge scenario. -/
def m70 : BatteryModel :=
  { capacity_wh := 100, eta := 9/10, initial_energy_wh := 70 }

/-! ### Properties of the round-half-even helper -/

/-- The rounded value is at least the floor. -/
theorem le_rhe (y : ℚ) : ⌊y⌋ ≤ rhe y := by
  unfold rhe; split_ifs <;> omega

/-- The rounded value is at most the floor plus one. -/
theorem rhe_le (y : ℚ) : rhe y ≤ ⌊y⌋ + 1 := by
  unfold rhe; split_ifs <;> omega

/-- Evaluation of `rhe` when the value lies in the lower half of its
unit interval. -/
theorem rhe_eval_lt (y : ℚ) (f : ℤ) (h1 : (f : ℚ) ≤ y)
    (h2 : y < (f : ℚ) + 1/2) : rhe y = f := by
  have hf : ⌊y⌋ = f := Int.floor_eq_iff.mpr ⟨h1, by linarith⟩
  unfold rhe
  rw [hf, if_pos (by linarith)]

/-- Anything strictly above `f + 3/2` rounds to at least `f + 2`. -/
theorem add_two_le_rhe (f : ℤ) (z : ℚ) (h : (f : ℚ) + 3/2 < z) :
    f + 2 ≤ rhe z := by
  rcases le_or_lt ((f : ℚ) + 2) z with hz | hz
  · have h2 : ((f + 2 : ℤ) : ℚ) ≤ z := by push_cast; linarith
    have h3 := Int.le_floor.mpr h2
    have h4 := le_rhe z
    omega
  · have hfz : ⌊z⌋ = f + 1 := by
      rw [Int.floor_eq_iff]
      constructor <;> push_cast <;> linarith
    have hr : 1/2 < z - ⌊z⌋ := by rw [hfz]; push_cast; linarith
    unfold rhe
    rw [if_neg (by linarith), if_pos hr, hfz]
    omega

/-- Core strict-monotonicity step of round-half-even: a gap of at least
one forces a strictly larger rounded value, except that an exact
half-tie additionally needs the gap to be strict. -/
theorem rhe_lt_rhe (y z : ℚ) (h1 : y + 1 ≤ z)
    (h2 : y - ⌊y⌋ = 1/2 → y + 1 < z) : rhe y < rhe z := by
  have hfy := Int.floor_le y
  have hfy1 := Int.lt_floor_add_one y
  rcases lt_trichotomy (y - ⌊y⌋) (1/2) with hr | hr | hr
  · have hy : rhe y = ⌊y⌋ := by unfold rhe; rw [if_pos hr]
    have hz : ⌊y⌋ + 1 ≤ ⌊z⌋ := by
      have h3 : ⌊y + (1 : ℤ)⌋ ≤ ⌊z⌋ := Int.floor_mono (by push_cast; linarith)
      rwa [Int.floor_add_int] at h3
    have h4 := le_rhe z
    omega
  · have hlt : (⌊y⌋ : ℚ) + 3/2 < z := by
      have h3 := h2 hr
      linarith
    have h4 := add_two_le_rhe ⌊y⌋ z hlt
    have h5 := rhe_le y
    omega
  · have hlt : (⌊y⌋ : ℚ) + 3/2 < z := by linarith
    have h4 := add_two_le_rhe ⌊y⌋ z hlt
    have hy : rhe y = ⌊y⌋ + 1 := by
      unfold rhe; rw [if_neg (by linarith), if_pos hr]
    omega

/-- On the grid of multiples of a step of size at least one,
round-half-even is strictly increasing. -/
theorem rhe_mul_lt (d : ℚ) (k : ℕ) (hd : 1 ≤ d) :
    rhe (k * d) < rhe ((k + 1 : ℕ) * d) := by
  apply rhe_lt_rhe
  · push_cast; nlinarith [Nat.cast_nonneg (α := ℚ) k]
  · intro htie
    rcases lt_or_eq_of_le hd with hd1 | hd1
    · push_cast; nlinarith [Nat.cast_nonneg (α := ℚ) k]
    · exfalso
      rw [← hd1, mul_one, Int.floor_natCast] at htie
      simp at htie

/-- Rounding a time grid with step at least one tick of the rounding
grid preserves strict ordering of consecutive grid points. -/
theorem roundTo10_lt (dt : ℚ) (hdt : 1 / 10 ^ 10 ≤ dt) (k : ℕ) :
    roundTo10 ((k : ℚ) * dt) < roundTo10 ((k + 1 : ℕ) * dt) := by
  unfold roundTo10
  have hpos : (0 : ℚ) < 10 ^ 10 := by norm_num
  rw [div_lt_div_iff_of_pos_right hpos]
  have hd : 1 ≤ dt * 10 ^ 10 := by
    have := mul_le_mul_of_nonneg_right hdt (le_of_lt hpos)
    calc (1 : ℚ) = 1 / 10 ^ 10 * 10 ^ 10 := by norm_num
    _ ≤ dt * 10 ^ 10 := this
  have h1 : (k : ℚ) * dt * 10 ^ 10 = (k : ℚ) * (dt * 10 ^ 10) := by ring
  have h2 : ((k + 1 : ℕ) : ℚ) * dt * 10 ^ 10 = ((k + 1 : ℕ) : ℚ) * (dt * 10 ^ 10) := by
    ring
  rw [h1, h2]
  exact_mod_cast rhe_mul_lt (dt * 10 ^ 10) k hd

/-- Rounding fixes exact grid points: if `t * 10^10` is an integer then
`roundTo10 t = t`. -/
theorem roundTo10_eq_self (t : ℚ) (f : ℤ) (h : t * 10 ^ 10 = (f : ℚ)) :
    roundTo10 t = t := by
  unfold roundTo10
  rw [h, rhe_eval_lt (f : ℚ) f (le_refl _) (by linarith)]
  field_simp at h ⊢
  linarith

/-- Zero is a fixed point of the label rounding. -/
theorem roundTo10_zero : roundTo10 0 = 0 :=
  roundTo10_eq_self 0 0 (by norm_num)

/-- Evaluation of the label rounding from bracketing bounds on the
scaled value. -/
theorem roundTo10_eval (t : ℚ) (f : ℤ) (h1 : (f : ℚ) ≤ t * 10 ^ 10)
    (h2 : t * 10 ^ 10 < (f : ℚ) + 1/2) : roundTo10 t = (f : ℚ) / 10 ^ 10 := by
  unfold roundTo10
  rw [rhe_eval_lt _ f h1 h2]

/-! ### Structural lemmas about the forward-Euler loop -/

/-- Unfolding lemma: the loop does nothing in zero steps. -/
theorem BatteryModel.simSteps_zero (m : BatteryModel) (p dt e t : ℚ) :
    m.simSteps p dt 0 e t = [] := rfl

/-- Unfolding lemma: one loop iteration records the rounded advanced
time, the clamped energy, the recomputed SoC and the unclamped energy
increment. -/
theorem BatteryModel.simSteps_succ (m : BatteryModel) (p dt e t : ℚ) (n : ℕ) :
    m.simSteps p dt (n + 1) e t =
      { time_h := roundTo10 (t + dt),
        energy_wh := m.clamp (e + m.eta * p * dt),
        soc := m.to_soc (m.clamp (e + m.eta * p * dt)),
        delta_e_wh := m.eta * p * dt } ::
        m.simSteps p dt n (m.clamp (e + m.eta * p * dt)) (t + dt) := rfl

/-- The loop records exactly one snapshot per step. -/
theorem BatteryModel.simSteps_length (m : BatteryModel) (p dt : ℚ) :
    ∀ (n : ℕ) (e t : ℚ), (m.simSteps p dt n e t).length = n
  | 0, _, _ => rfl
  | n + 1, e, t => by
    rw [BatteryModel.simSteps_succ, List.length_cons,
      BatteryModel.simSteps_length m p dt n]

/-- Every snapshot the loop records carries a clamped, in-bounds
energy value. -/
theorem BatteryModel.simSteps_energy_bounds (m : BatteryModel) (p dt : ℚ)
    (hcap : 0 ≤ m.capacity_wh) :
    ∀ (n : ℕ) (e t : ℚ), ∀ s ∈ m.simSteps p dt n e t,
      0 ≤ s.energy_wh ∧ s.energy_wh ≤ m.capacity_wh
  | 0, _, _, s, hs => by simp [BatteryModel.simSteps_zero] at hs
  | n + 1, e, t, s, hs => by
    rw [BatteryModel.simSteps_succ] at hs
    rcases List.mem_cons.mp hs with rfl | hmem
    · constructor
      · show (0 : ℚ) ≤ max 0 (min m.capacity_wh _)
        exact le_max_left _ _
      · show max 0 (min m.capacity_wh _) ≤ m.capacity_wh
        exact max_le hcap (min_le_left _ _)
    · exact BatteryModel.simSteps_energy_bounds m p dt hcap n _ _ s hmem

/-- Fast-forward lemma: as long as the clamp is inactive for the first
`j` steps, dropping `j` recorded snapshots leaves the loop restarted at
the unclamped energy `e + j * delta` and time `t + j * dt`. -/
theorem BatteryModel.simSteps_drop (m : BatteryModel) (p dt : ℚ) :
    ∀ (j n : ℕ) (e t : ℚ), j ≤ n →
      (∀ k : ℕ, k < j →
        m.clamp (e + ((k : ℚ) + 1) * (m.eta * p * dt)) =
          e + ((k : ℚ) + 1) * (m.eta * p * dt)) →
      (m.simSteps p dt n e t).drop j =
        m.simSteps p dt (n - j) (e + (j : ℚ) * (m.eta * p * dt))
          (t + (j : ℚ) * dt)
  | 0, n, e, t, _, _ => by simp
  | j + 1, n, e, t, hjn, h => by
    obtain ⟨n', rfl⟩ : ∃ n', n = n' + 1 := ⟨n - 1, by omega⟩
    rw [BatteryModel.simSteps_succ, List.drop_succ_cons]
    have h0 := h 0 (by omega)
    norm_num at h0
    rw [h0]
    have hcond : ∀ k : ℕ, k < j →
        m.clamp (e + m.eta * p * dt + ((k : ℚ) + 1) * (m.eta * p * dt)) =
          e + m.eta * p * dt + ((k : ℚ) + 1) * (m.eta * p * dt) := by
      intro k hk
      have h' := h (k + 1) (by omega)
      have harr : e + m.eta * p * dt + ((k : ℚ) + 1) * (m.eta * p * dt) =
          e + (((k + 1 : ℕ) : ℚ) + 1) * (m.eta * p * dt) := by
        push_cast; ring
      rw [harr, h']
    have hIH := BatteryModel.simSteps_drop m p dt j n' (e + m.eta * p * dt)
      (t + dt) (by omega) hcond
    rw [hIH]
    have hn : n' - j = n' + 1 - (j + 1) := by omega
    have he : e + m.eta * p * dt + (j : ℚ) * (m.eta * p * dt) =
        e + ((j + 1 : ℕ) : ℚ) * (m.eta * p * dt) := by push_cast; ring
    have ht : t + dt + (j : ℚ) * dt = t + ((j + 1 : ℕ) : ℚ) * dt := by
      push_cast; ring
    rw [hn, he, ht]

/-- Recorded times of the loop, started at grid point `k * dt`, form a
strictly increasing chain after any state whose recorded time is the
rounded grid point — provided the step is at least one tick of the
rounding grid. -/
theorem BatteryModel.simSteps_chain (m : BatteryModel) (p dt : ℚ)
    (hdt : 1 / 10 ^ 10 ≤ dt) :
    ∀ (n k : ℕ) (e : ℚ) (s : BatteryState),
      s.time_h = roundTo10 ((k : ℚ) * dt) →
      List.Chain (fun a b => a.time_h < b.time_h) s
        (m.simSteps p dt n e ((k : ℚ) * dt))
  | 0, _, _, _, _ => List.Chain.nil
  | n + 1, k, e, s, hs => by
    rw [BatteryModel.simSteps_succ]
    have ht : (k : ℚ) * dt + dt = ((k + 1 : ℕ) : ℚ) * dt := by push_cast; ring
    rw [ht]
    apply List.Chain.cons
    · rw [hs]
      exact roundTo10_lt dt hdt k
    · exact BatteryModel.simSteps_chain m p dt hdt n (k + 1) _ _ rfl

/-! ### Inversion lemmas for the validated constructors and calls -/

/-- Characterisation of a successful `BatteryModel` construction. -/
theorem BatteryModel.make_ok_iff (capacity_wh initial_soc eta : ℚ)
    (m : BatteryModel) :
    BatteryModel.make capacity_wh initial_soc eta = .ok m ↔
      0 < capacity_wh ∧ (0 ≤ initial_soc ∧ initial_soc ≤ 1) ∧
        (0 < eta ∧ eta ≤ 1) ∧
        m = { capacity_wh := capacity_wh, eta := eta,
              initial_energy_wh := initial_soc * capacity_wh } := by
  unfold BatteryModel.make
  by_cases h1 : capacity_wh ≤ 0
  · rw [if_pos h1]
    constructor
    · intro h; simp at h
    · rintro ⟨hc, -, -, -⟩; linarith
  · rw [if_neg h1]
    by_cases h2 : 0 ≤ initial_soc ∧ initial_soc ≤ 1
    · rw [if_neg (not_not_intro h2)]
      by_cases h3 : 0 < eta ∧ eta ≤ 1
      · rw [if_neg (not_not_intro h3)]
        simp only [Except.ok.injEq]
        constructor
        · intro h; exact ⟨not_le.mp h1, h2, h3, h.symm⟩
        · rintro ⟨-, -, -, rfl⟩; rfl
      · rw [if_pos h3]
        constructor
        · intro h; simp at h
        · rintro ⟨-, -, he, -⟩; exact absurd he h3
    · rw [if_pos h2]
      constructor
      · intro h; simp at h
      · rintro ⟨-, hs, -, -⟩; exact absurd hs h2

/-- Characterisation of a successful `simulate` call: the three
preconditions hold and the returned series is the initial snapshot
followed by `floor(duration / timestep)` recorded Euler steps. -/
theorem BatteryModel.simulate_ok_iff (m : BatteryModel) (p dt dur : ℚ)
    (ts : BatteryTimeSeries) :
    m.simulate p dt dur = .ok ts ↔
      0 < dt ∧ 0 < dur ∧ dt ≤ dur ∧
        ts = { steps := { time_h := 0, energy_wh := m.initial_energy_wh,
                          soc := m.to_soc m.initial_energy_wh,
                          delta_e_wh := 0 } ::
                 m.simSteps p dt (⌊dur / dt⌋).toNat m.initial_energy_wh 0,
               dt_h := dt, duration_h := dur, capacity_wh := m.capacity_wh,
               eta := m.eta, p_excess_w := p } := by
  unfold BatteryModel.simulate
  by_cases h1 : dt ≤ 0
  · rw [if_pos h1]
    constructor
    · intro h; simp at h
    · rintro ⟨hdt, -, -, -⟩; linarith
  · rw [if_neg h1]
    by_cases h2 : dur ≤ 0
    · rw [if_pos h2]
      constructor
      · intro h; simp at h
      · rintro ⟨-, hdur, -, -⟩; linarith
    · rw [if_neg h2]
      by_cases h3 : dur < dt
      · rw [if_pos h3]
        constructor
        · intro h; simp at h
        · rintro ⟨-, -, hled, -⟩; linarith
      · rw [if_neg h3]
        simp only [Except.ok.injEq]
        constructor
        · intro h; exact ⟨not_le.mp h1, not_le.mp h2, not_lt.mp h3, h.symm⟩
        · rintro ⟨-, -, -, rfl⟩; rfl

/-- Characterisation of a successful `EPSController` construction. -/
theorem EPSController.make_controller_ok_iff (soc_upper_limit : ℚ) (c : EPSController) :
    EPSController.make soc_upper_limit = .ok c ↔
      (0 < soc_upper_limit ∧ soc_upper_limit ≤ 1) ∧
        c = { soc_upper_limit := soc_upper_limit } := by
  unfold EPSController.make
  by_cases h1 : 0 < soc_upper_limit ∧ soc_upper_limit ≤ 1
  · rw [if_neg (not_not_intro h1)]
    simp only [Except.ok.injEq]
    constructor
    · intro h; exact ⟨h1, h.symm⟩
    · rintro ⟨-, rfl⟩; rfl
  · rw [if_pos h1]
    constructor
    · intro h; simp at h
    · rintro ⟨hl, -⟩; exact absurd hl h1

/-- Evaluation of `route` on in-range state of charge: the result in
each of the three reachable branches (deficit, battery full, battery
charging). -/
theorem EPSController.route_eval (c : EPSController) (p soc : ℚ)
    (hsoc : 0 ≤ soc ∧ soc ≤ 1) :
    c.route p soc =
      if p ≤ 0 then
        .ok { p_excess_w := p, battery_charge_w := 0, payload_w := 0,
              supercap_w := 0, shunt_w := 0,
              battery_full := decide (soc ≥ c.soc_upper_limit) }
      else if c.soc_upper_limit ≤ soc then
        .ok { p_excess_w := p, battery_charge_w := 0, payload_w := 0,
              supercap_w := 0, shunt_w := p, battery_full := true }
      else
        .ok { p_excess_w := p, battery_charge_w := p, payload_w := 0,
              supercap_w := 0, shunt_w := 0, battery_full := false } := by
  unfold EPSController.route
  rw [if_neg (not_not_intro hsoc)]
  by_cases hp : p ≤ 0
  · rw [if_pos hp, if_pos hp]
  · rw [if_neg hp, if_neg hp]
    dsimp only
    by_cases hfull : c.soc_upper_limit ≤ soc
    · rw [if_pos hfull, if_pos (show soc ≥ c.soc_upper_limit from hfull)]
      simp [hfull]
    · rw [if_neg hfull, if_neg (show ¬soc ≥ c.soc_upper_limit from hfull)]
      simp [hfull]

/-! ### Claim theorems: power routing -/

/-- C1: for a router constructed with `socUpperLimit ∈ (0,1]` and a
`route` call with `currentSoc ∈ [0,1]`, a positive excess power is
split so that the four sink outputs sum exactly to it, and a
non-positive excess power yields all four sink outputs exactly zero. -/
theorem route_allocation_conservation (l p soc : ℚ)
    (_hl : 0 < l ∧ l ≤ 1) (hsoc : 0 ≤ soc ∧ soc ≤ 1)
    (c : EPSController) (hc : EPSController.make l = .ok c)
    (a : RoutingAllocation) (ha : c.route p soc = .ok a) :
    (0 < p → a.battery_charge_w + a.payload_w + a.supercap_w + a.shunt_w = p) ∧
    (p ≤ 0 → a.battery_charge_w = 0 ∧ a.payload_w = 0 ∧ a.supercap_w = 0 ∧
      a.shunt_w = 0) := by
  rw [EPSController.make_controller_ok_iff] at hc
  obtain ⟨-, rfl⟩ := hc
  rw [EPSController.route_eval _ _ _ hsoc] at ha
  by_cases hp : p ≤ 0
  · rw [if_pos hp] at ha
    simp only [Except.ok.injEq] at ha
    subst ha
    exact ⟨fun h0 => absurd hp (not_le.mpr h0), fun _ => ⟨rfl, rfl, rfl, rfl⟩⟩
  · rw [if_neg hp] at ha
    by_cases hfull : l ≤ soc
    · rw [if_pos hfull] at ha
      simp only [Except.ok.injEq] at ha
      subst ha
      exact ⟨fun _ => by norm_num, fun hple => absurd hple hp⟩
    · rw [if_neg hfull] at ha
      simp only [Except.ok.injEq] at ha
      subst ha
      exact ⟨fun _ => by norm_num, fun hple => absurd hple hp⟩

/-- Witness for C1 at `socUpperLimit = 1`, `excessPower = 50`,
`currentSoc = 1` (battery-full branch: everything goes to the shunt). -/
theorem route_allocation_conservation_witness :
    (0 < (50 : ℚ) →
      RoutingAllocation.battery_charge_w
          { p_excess_w := 50, battery_charge_w := 0, payload_w := 0,
            supercap_w := 0, shunt_w := 50, battery_full := true } +
        RoutingAllocation.payload_w
          { p_excess_w := 50, battery_charge_w := 0, payload_w := 0,
            supercap_w := 0, shunt_w := 50, battery_full := true } +
        RoutingAllocation.supercap_w
          { p_excess_w := 50, battery_charge_w := 0, payload_w := 0,
            supercap_w := 0, shunt_w := 50, battery_full := true } +
        RoutingAllocation.shunt_w
          { p_excess_w := 50, battery_charge_w := 0, payload_w := 0,
            supercap_w := 0, shunt_w := 50, battery_full := true } = 50) ∧
    ((50 : ℚ) ≤ 0 →
      RoutingAllocation.battery_charge_w
          { p_excess_w := 50, battery_charge_w := 0, payload_w := 0,
            supercap_w := 0, shunt_w := 50, battery_full := true } = 0 ∧
        RoutingAllocation.payload_w
          { p_excess_w := 50, battery_charge_w := 0, payload_w := 0,
            supercap_w := 0, shunt_w := 50, battery_full := true } = 0 ∧
        RoutingAllocation.supercap_w
          { p_excess_w := 50, battery_charge_w := 0, payload_w := 0,
            supercap_w := 0, shunt_w := 50, battery_full := true } = 0 ∧
        RoutingAllocation.shunt_w
          { p_excess_w := 50, battery_charge_w := 0, payload_w := 0,
            supercap_w := 0, shunt_w := 50, battery_full := true } = 0) :=
  route_allocation_conservation 1 50 1 (by norm_num) (by norm_num)
    { soc_upper_limit := 1 }
    (by rw [EPSController.make_controller_ok_iff]; exact ⟨by norm_num, rfl⟩)
    { p_excess_w := 50, battery_charge_w := 0, payload_w := 0,
      supercap_w := 0, shunt_w := 50, battery_full := true }
    (by
      rw [EPSController.route_eval _ _ _ (by norm_num),
        if_neg (by norm_num), if_pos (by norm_num)])

/-- C3 counterexample: on a deficit call (`excessPower = -5`) with
`currentSoc = 1/2 < socUpperLimit = 1`, the controller still returns
`batteryChargePower = 0`, so the claimed equivalence with
`currentSoc ≥ socUpperLimit` fails. -/
theorem route_gating_counterexample :
    ((EPSController.make 1).bind (fun c => c.route (-5) (1/2))).map
        RoutingAllocation.battery_charge_w = .ok 0 ∧ ¬((1 : ℚ)/2 ≥ 1) := by
  constructor
  · have hc : EPSController.make 1 = .ok { soc_upper_limit := 1 } := by
      rw [EPSController.make_controller_ok_iff]; exact ⟨by norm_num, rfl⟩
    rw [hc]
    show (EPSController.route { soc_upper_limit := 1 } (-5) (1/2)).map
      RoutingAllocation.battery_charge_w = .ok 0
    rw [EPSController.route_eval _ _ _ (by norm_num), if_pos (by norm_num)]
    rfl
  · norm_num

/-- C3 amended: on a `route` call with `currentSoc ∈ [0,1]` and
*positive* excess power, `batteryChargePower = 0` iff
`currentSoc ≥ socUpperLimit`; on a non-positive excess power the battery
sink is 0 regardless of the state of charge. -/
theorem route_battery_full_gating (l p soc : ℚ)
    (hsoc : 0 ≤ soc ∧ soc ≤ 1)
    (c : EPSController) (hc : EPSController.make l = .ok c)
    (a : RoutingAllocation) (ha : c.route p soc = .ok a) :
    (0 < p → (a.battery_charge_w = 0 ↔ soc ≥ l)) ∧
    (p ≤ 0 → a.battery_charge_w = 0) := by
  rw [EPSController.make_controller_ok_iff] at hc
  obtain ⟨-, rfl⟩ := hc
  rw [EPSController.route_eval _ _ _ hsoc] at ha
  by_cases hp : p ≤ 0
  · rw [if_pos hp] at ha
    simp only [Except.ok.injEq] at ha
    subst ha
    exact ⟨fun h0 => absurd hp (not_le.mpr h0), fun _ => rfl⟩
  · rw [if_neg hp] at ha
    by_cases hfull : l ≤ soc
    · rw [if_pos hfull] at ha
      simp only [Except.ok.injEq] at ha
      subst ha
      exact ⟨fun _ => ⟨fun _ => hfull, fun _ => rfl⟩, fun hple => absurd hple hp⟩
    · rw [if_neg hfull] at ha
      simp only [Except.ok.injEq] at ha
      subst ha
      refine ⟨fun h0 => ⟨fun hb => ?_, fun hge => absurd hge hfull⟩,
        fun hple => absurd hple hp⟩
      exact absurd (show p = 0 from hb) (by linarith)

/-- Witness for the amended C3 at `socUpperLimit = 1`,
`excessPower = 50`, `currentSoc = 1` (battery full, charging gated). -/
theorem route_battery_full_gating_witness :
    (0 < (50 : ℚ) →
      (RoutingAllocation.battery_charge_w
          { p_excess_w := 50, battery_charge_w := 0, payload_w := 0,
            supercap_w := 0, shunt_w := 50, battery_full := true } = 0 ↔
        (1 : ℚ) ≥ 1)) ∧
    ((50 : ℚ) ≤ 0 →
      RoutingAllocation.battery_charge_w
          { p_excess_w := 50, battery_charge_w := 0, payload_w := 0,
            supercap_w := 0, shunt_w := 50, battery_full := true } = 0) :=
  route_battery_full_gating 1 50 1 (by norm_num)
    { soc_upper_limit := 1 }
    (by rw [EPSController.make_controller_ok_iff]; exact ⟨by norm_num, rfl⟩)
    { p_excess_w := 50, battery_charge_w := 0, payload_w := 0,
      supercap_w := 0, shunt_w := 50, battery_full := true }
    (by
      rw [EPSController.route_eval _ _ _ (by norm_num),
        if_neg (by norm_num), if_pos (by norm_num)])

/-! ### Claim theorems: coupled power-flow step and charging time -/

/-- C5: in the coupled headroom-capped step, with a positive timestep,
efficiency in `(0,1]` and current energy at most the capacity, the
battery charging power is the surplus capped by the headroom power
`(capacity − energy) / (eta · dt)`, the shunt absorbs the rest of the
surplus (so the two sum to the surplus), and the returned energy is the
clamped Euler update, never exceeding the capacity. -/
theorem route_step_headroom_spec (p_solar_w p_avionics_w e eta cap dt : ℚ)
    (hdt : 0 < dt) (_heta : 0 < eta ∧ eta ≤ 1) (_he : e ≤ cap) :
    (route_step p_solar_w p_avionics_w e eta cap dt).battery_charging_w =
      min (max (p_solar_w - p_avionics_w) 0) ((cap - e) / (eta * dt)) ∧
    (route_step p_solar_w p_avionics_w e eta cap dt).shunt_w =
      max (p_solar_w - p_avionics_w) 0 -
        (route_step p_solar_w p_avionics_w e eta cap dt).battery_charging_w ∧
    (route_step p_solar_w p_avionics_w e eta cap dt).battery_charging_w +
        (route_step p_solar_w p_avionics_w e eta cap dt).shunt_w =
      max (p_solar_w - p_avionics_w) 0 ∧
    (route_step p_solar_w p_avionics_w e eta cap dt).new_battery_energy_wh =
      min (max (e + eta *
        (route_step p_solar_w p_avionics_w e eta cap dt).battery_charging_w
          * dt) 0) cap ∧
    (route_step p_solar_w p_avionics_w e eta cap dt).new_battery_energy_wh
      ≤ cap := by
  unfold route_step
  dsimp only
  rw [if_pos hdt]
  exact ⟨rfl, rfl, by ring, rfl, min_le_right _ _⟩

/-- Witness for C5 at the repository's engineering constants
(solar 180 W, avionics EOL load 75.8125 W, energy 70 Wh of 100 Wh,
efficiency 0.9, timestep 1/60 h). -/
theorem route_step_headroom_spec_witness :
    (route_step 180 (12130/160) 70 (9/10) 100 (1/60)).battery_charging_w =
      min (max ((180 : ℚ) - 12130/160) 0) (((100 : ℚ) - 70) / (9/10 * (1/60))) ∧
    (route_step 180 (12130/160) 70 (9/10) 100 (1/60)).shunt_w =
      max ((180 : ℚ) - 12130/160) 0 -
        (route_step 180 (12130/160) 70 (9/10) 100 (1/60)).battery_charging_w ∧
    (route_step 180 (12130/160) 70 (9/10) 100 (1/60)).battery_charging_w +
        (route_step 180 (12130/160) 70 (9/10) 100 (1/60)).shunt_w =
      max ((180 : ℚ) - 12130/160) 0 ∧
    (route_step 180 (12130/160) 70 (9/10) 100 (1/60)).new_battery_energy_wh =
      min (max ((70 : ℚ) + 9/10 *
        (route_step 180 (12130/160) 70 (9/10) 100 (1/60)).battery_charging_w
          * (1/60)) 0) 100 ∧
    (route_step 180 (12130/160) 70 (9/10) 100 (1/60)).new_battery_energy_wh
      ≤ 100 :=
  route_step_headroom_spec 180 (12130/160) 70 (9/10) 100 (1/60)
    (by norm_num) (by norm_num) (by norm_num)

/-- C10: in the coupled step with in-bounds stored energy, positive
timestep and efficiency in `(0,1]`, a zero-or-negative excess
(`solar ≤ avionics`) routes nothing: battery charging and shunt are both
zero and the stored energy is returned unchanged. -/
theorem route_step_deficit_noop (p_solar_w p_avionics_w e eta cap dt : ℚ)
    (he : 0 ≤ e ∧ e ≤ cap) (hdt : 0 < dt) (heta : 0 < eta ∧ eta ≤ 1)
    (hdef : p_solar_w ≤ p_avionics_w) :
    (route_step p_solar_w p_avionics_w e eta cap dt).battery_charging_w = 0 ∧
    (route_step p_solar_w p_avionics_w e eta cap dt).shunt_w = 0 ∧
    (route_step p_solar_w p_avionics_w e eta cap dt).new_battery_energy_wh
      = e := by
  unfold route_step
  dsimp only
  rw [if_pos hdt]
  have hx : max (p_solar_w - p_avionics_w) 0 = 0 := max_eq_right (by linarith)
  have hcm : (0 : ℚ) ≤ (cap - e) / (eta * dt) :=
    div_nonneg (by linarith [he.2]) (le_of_lt (mul_pos heta.1 hdt))
  rw [hx, min_eq_left hcm]
  refine ⟨rfl, by norm_num, ?_⟩
  have harith : e + eta * 0 * dt = e := by ring
  rw [harith, max_eq_left he.1, min_eq_left he.2]

/-- Witness for C10 in eclipse conditions (solar 0 W, avionics load
75.8125 W, energy 70 Wh of 100 Wh, efficiency 0.9, timestep 1/60 h). -/
theorem route_step_deficit_noop_witness :
    (route_step 0 (12130/160) 70 (9/10) 100 (1/60)).battery_charging_w = 0 ∧
    (route_step 0 (12130/160) 70 (9/10) 100 (1/60)).shunt_w = 0 ∧
    (route_step 0 (12130/160) 70 (9/10) 100 (1/60)).new_battery_energy_wh
      = 70 :=
  route_step_deficit_noop 0 (12130/160) 70 (9/10) 100 (1/60)
    (by norm_num) (by norm_num) (by norm_num) (by norm_num)

/-- C9: `compute_charging_time` fails exactly when the efficiency is
outside `(0,1]` or the excess power is non-positive, and on valid inputs
returns `remainingEnergy / (efficiency · excessPower)`. -/
theorem compute_charging_time_spec (e p eta : ℚ) :
    ((∃ msg, compute_charging_time e p eta = .error msg) ↔
      ¬(0 < eta ∧ eta ≤ 1) ∨ p ≤ 0) ∧
    (0 < eta ∧ eta ≤ 1 → 0 < p →
      compute_charging_time e p eta = .ok (e / (eta * p))) := by
  unfold compute_charging_time
  by_cases h1 : 0 < eta ∧ eta ≤ 1
  · rw [if_neg (not_not_intro h1)]
    by_cases h2 : p ≤ 0
    · rw [if_pos h2]
      refine ⟨⟨fun _ => Or.inr h2, fun _ => ⟨_, rfl⟩⟩, fun _ hp => absurd h2 (not_le.mpr hp)⟩
    · rw [if_neg h2]
      constructor
      · constructor
        · rintro ⟨msg, hmsg⟩; simp at hmsg
        · rintro (hc | hc)
          · exact absurd h1 hc
          · exact absurd hc h2
      · intro _ _
        rw [mul_comm eta p]
  · rw [if_pos h1]
    refine ⟨⟨fun _ => Or.inl h1, fun _ => ⟨_, rfl⟩⟩, fun hv _ => absurd hv h1⟩

/-- Witness for C9 on the spec's invalid-input scenario
(`excessPower = 0`, `efficiency = 0.9`) — instantiated at
`remainingEnergy = 30`. -/
theorem compute_charging_time_spec_witness :
    ((∃ msg, compute_charging_time 30 0 (9/10) = .error msg) ↔
      ¬((0 : ℚ) < 9/10 ∧ (9 : ℚ)/10 ≤ 1) ∨ (0 : ℚ) ≤ 0) ∧
    ((0 : ℚ) < 9/10 ∧ (9 : ℚ)/10 ≤ 1 → (0 : ℚ) < 0 →
      compute_charging_time 30 0 (9/10) = .ok (30 / (9/10 * 0))) :=
  compute_charging_time_spec 30 0 (9/10)

/-! ### Shared concrete fixtures for witnesses -/

/-- Constructing the repository's example battery (100 Wh, 70 % SoC,
eta = 0.9) succeeds and stores 70 Wh of initial energy. -/
theorem make_m70 :
    BatteryModel.make 100 (7/10) (9/10) =
      .ok { capacity_wh := 100, eta := 9/10, initial_energy_wh := 70 } := by
  rw [BatteryModel.make_ok_iff]
  refine ⟨by norm_num, by norm_num, by norm_num, ?_⟩
  simp only [BatteryModel.mk.injEq]
  norm_num

/-- A one-step reference run: 10 W drive power for one 1-hour step
charges the example battery from 70 Wh to 79 Wh. -/
theorem sim_m70_ok :
    ({ capacity_wh := 100, eta := 9/10, initial_energy_wh := 70 }
        : BatteryModel).simulate 10 1 1 =
      .ok { steps := [{ time_h := 0, energy_wh := 70, soc := 7/10,
                        delta_e_wh := 0 },
                      { time_h := 1, energy_wh := 79, soc := 79/100,
                        delta_e_wh := 9 }],
            dt_h := 1, duration_h := 1, capacity_wh := 100, eta := 9/10,
            p_excess_w := 10 } := by
  refine (BatteryModel.simulate_ok_iff _ _ _ _ _).mpr
    ⟨by norm_num, by norm_num, by norm_num, ?_⟩
  have hfl : (⌊(1 : ℚ) / 1⌋).toNat = 1 := by
    rw [show (1 : ℚ) / 1 = ((1 : ℤ) : ℚ) by norm_num, Int.floor_intCast]
    rfl
  rw [hfl, show (1 : ℕ) = 0 + 1 from rfl, BatteryModel.simSteps_succ,
    BatteryModel.simSteps_zero]
  have ht1 : roundTo10 ((0 : ℚ) + 1) = 1 := by
    rw [zero_add]
    rw [roundTo10_eq_self 1 (10 ^ 10) (by norm_num)]
  have hcl : ({ capacity_wh := 100, eta := 9/10, initial_energy_wh := 70 }
      : BatteryModel).clamp (70 + 9/10 * 10 * 1) = 79 := by
    unfold BatteryModel.clamp
    norm_num [min_def, max_def]
  simp only [BatteryTimeSeries.mk.injEq, List.cons.injEq,
    BatteryState.mk.injEq, BatteryModel.to_soc, ht1, hcl]
  norm_num

/-! ### Claim theorems: battery simulation -/

/-- C2: a validly constructed battery integrator keeps every recorded
snapshot's stored energy within `[0, capacity]`, for any drive power and
any successful simulate call. -/
theorem simulate_energy_bounds (capacity_wh initial_soc eta p dt dur : ℚ)
    (m : BatteryModel)
    (hm : BatteryModel.make capacity_wh initial_soc eta = .ok m)
    (ts : BatteryTimeSeries) (hts : m.simulate p dt dur = .ok ts) :
    ∀ s ∈ ts.steps, 0 ≤ s.energy_wh ∧ s.energy_wh ≤ capacity_wh := by
  rw [BatteryModel.make_ok_iff] at hm
  obtain ⟨hcap, hsoc, -, rfl⟩ := hm
  rw [BatteryModel.simulate_ok_iff] at hts
  obtain ⟨-, -, -, rfl⟩ := hts
  intro s hs
  rcases List.mem_cons.mp hs with rfl | hmem
  · constructor
    · exact mul_nonneg hsoc.1 hcap.le
    · calc initial_soc * capacity_wh ≤ 1 * capacity_wh :=
        mul_le_mul_of_nonneg_right hsoc.2 hcap.le
      _ = capacity_wh := one_mul _
  · exact BatteryModel.simSteps_energy_bounds _ p dt hcap.le _ _ _ s hmem

/-- Witness for C2: the initial snapshot of the one-step reference run
satisfies the energy bounds. -/
theorem simulate_energy_bounds_witness :
    0 ≤ (BatteryState.mk 0 70 (7/10) 0).energy_wh ∧
      (BatteryState.mk 0 70 (7/10) 0).energy_wh ≤ 100 :=
  simulate_energy_bounds 100 (7/10) (9/10) 10 1 1
    { capacity_wh := 100, eta := 9/10, initial_energy_wh := 70 } make_m70
    { steps := [{ time_h := 0, energy_wh := 70, soc := 7/10,
                  delta_e_wh := 0 },
                { time_h := 1, energy_wh := 79, soc := 79/100,
                  delta_e_wh := 9 }],
      dt_h := 1, duration_h := 1, capacity_wh := 100, eta := 9/10,
      p_excess_w := 10 } sim_m70_ok
    (BatteryState.mk 0 70 (7/10) 0) (List.mem_cons_self _ _)

/-- C6: every successful simulate call records exactly
`floor(duration / timestep) + 1` snapshots, the first of which is the
initial condition with time 0 and energy delta 0. -/
theorem simulate_length_and_head (m : BatteryModel) (p dt dur : ℚ)
    (ts : BatteryTimeSeries) (hts : m.simulate p dt dur = .ok ts) :
    ts.steps.length = (⌊dur / dt⌋).toNat + 1 ∧
    ts.steps[0]?.map (fun s => (s.time_h, s.delta_e_wh)) = some (0, 0) := by
  rw [BatteryModel.simulate_ok_iff] at hts
  obtain ⟨-, -, -, rfl⟩ := hts
  constructor
  · show (_ :: _).length = _
    rw [List.length_cons, BatteryModel.simSteps_length]
  · simp

/-- Witness for C6 on the one-step reference run. -/
theorem simulate_length_and_head_witness :
    ([{ time_h := 0, energy_wh := 70, soc := 7/10, delta_e_wh := 0 },
      { time_h := 1, energy_wh := 79, soc := 79/100, delta_e_wh := 9 }]
        : List BatteryState).length = (⌊(1 : ℚ) / 1⌋).toNat + 1 ∧
    ([{ time_h := 0, energy_wh := 70, soc := 7/10, delta_e_wh := 0 },
      { time_h := 1, energy_wh := 79, soc := 79/100, delta_e_wh := 9 }]
        : List BatteryState)[0]?.map (fun s => (s.time_h, s.delta_e_wh)) =
      some (0, 0) :=
  simulate_length_and_head
    { capacity_wh := 100, eta := 9/10, initial_energy_wh := 70 } 10 1 1
    { steps := [{ time_h := 0, energy_wh := 70, soc := 7/10,
                  delta_e_wh := 0 },
                { time_h := 1, energy_wh := 79, soc := 79/100,
                  delta_e_wh := 9 }],
      dt_h := 1, duration_h := 1, capacity_wh := 100, eta := 9/10,
      p_excess_w := 10 } sim_m70_ok

/-- C7: `simulate` rejects exactly the calls with a non-positive
timestep, a non-positive duration, or a timestep exceeding the duration,
each with its own distinct error message (checked in that order), and
succeeds with a complete `floor(duration/timestep) + 1`-snapshot series
otherwise. -/
theorem simulate_invalid_argument (m : BatteryModel) (p dt dur : ℚ) :
    (dt ≤ 0 → m.simulate p dt dur = .error "Timestep must be positive") ∧
    (0 < dt → dur ≤ 0 →
      m.simulate p dt dur = .error "Duration must be positive") ∧
    (0 < dt → 0 < dur → dur < dt →
      m.simulate p dt dur = .error "Timestep exceeds duration") ∧
    (0 < dt → 0 < dur → dt ≤ dur → ∃ ts, m.simulate p dt dur = .ok ts ∧
      ts.steps.length = (⌊dur / dt⌋).toNat + 1) ∧
    ("Timestep must be positive" ≠ "Duration must be positive" ∧
      "Timestep must be positive" ≠ "Timestep exceeds duration" ∧
      "Duration must be positive" ≠ "Timestep exceeds duration") := by
  refine ⟨fun h1 => ?_, fun h1 h2 => ?_, fun h1 h2 h3 => ?_,
    fun h1 h2 h3 => ?_, by decide, by decide, by decide⟩
  · unfold BatteryModel.simulate
    rw [if_pos h1]
  · unfold BatteryModel.simulate
    rw [if_neg (not_le.mpr h1), if_pos h2]
  · unfold BatteryModel.simulate
    rw [if_neg (not_le.mpr h1), if_neg (not_le.mpr h2), if_pos h3]
  · refine ⟨_, (BatteryModel.simulate_ok_iff m p dt dur _).mpr
      ⟨h1, h2, h3, rfl⟩, ?_⟩
    show (_ :: _).length = _
    rw [List.length_cons, BatteryModel.simSteps_length]

/-- Witness for C7: a negative timestep is rejected with the
timestep-specific message. -/
theorem simulate_invalid_argument_witness :
    (-1 : ℚ) ≤ 0 ∧
      ({ capacity_wh := 100, eta := 9/10, initial_energy_wh := 70 }
          : BatteryModel).simulate 10 (-1) 1 =
        .error "Timestep must be positive" :=
  ⟨by norm_num,
    (simulate_invalid_argument
      { capacity_wh := 100, eta := 9/10, initial_energy_wh := 70 }
      10 (-1) 1).1 (by norm_num)⟩

/-- C8 amended: on every successful `simulate` call whose timestep is at
least `10⁻¹⁰` hours (one tick of the label-rounding grid), the recorded
times are strictly increasing and the first recorded time is exactly 0.
(For smaller timesteps the `round(·, 10)` applied to recorded times can
collapse consecutive labels; see the counterexample.) -/
theorem simulate_time_monotone (m : BatteryModel) (p dt dur : ℚ)
    (ts : BatteryTimeSeries) (hts : m.simulate p dt dur = .ok ts)
    (hdt : 1 / 10 ^ 10 ≤ dt) :
    List.Chain' (fun a b => a.time_h < b.time_h) ts.steps ∧
    ts.steps[0]?.map BatteryState.time_h = some 0 := by
  rw [BatteryModel.simulate_ok_iff] at hts
  obtain ⟨-, -, -, rfl⟩ := hts
  constructor
  · show List.Chain (fun a b : BatteryState => a.time_h < b.time_h) _ _
    have h := BatteryModel.simSteps_chain m p dt hdt ((⌊dur / dt⌋).toNat) 0
      m.initial_energy_wh
      { time_h := 0, energy_wh := m.initial_energy_wh,
        soc := m.to_soc m.initial_energy_wh, delta_e_wh := 0 }
      (by rw [Nat.cast_zero, zero_mul, roundTo10_zero])
    simpa using h
  · simp

/-- Witness for the amended C8 on the one-step reference run
(timestep 1 h ≥ 10⁻¹⁰ h). -/
theorem simulate_time_monotone_witness :
    List.Chain' (fun a b : BatteryState => a.time_h < b.time_h)
      [{ time_h := 0, energy_wh := 70, soc := 7/10, delta_e_wh := 0 },
       { time_h := 1, energy_wh := 79, soc := 79/100, delta_e_wh := 9 }] ∧
    ([{ time_h := 0, energy_wh := 70, soc := 7/10, delta_e_wh := 0 },
      { time_h := 1, energy_wh := 79, soc := 79/100, delta_e_wh := 9 }]
        : List BatteryState)[0]?.map BatteryState.time_h = some 0 :=
  simulate_time_monotone
    { capacity_wh := 100, eta := 9/10, initial_energy_wh := 70 } 10 1 1
    { steps := [{ time_h := 0, energy_wh := 70, soc := 7/10,
                  delta_e_wh := 0 },
                { time_h := 1, energy_wh := 79, soc := 79/100,
                  delta_e_wh := 9 }],
      dt_h := 1, duration_h := 1, capacity_wh := 100, eta := 9/10,
      p_excess_w := 10 } sim_m70_ok (by norm_num)

/-- C8 counterexample: with the tiny (but valid) timestep `10⁻¹²` h over
a `2·10⁻¹²` h window, the simulate call succeeds but all three recorded
times round to 0, so the recorded times are not strictly increasing. -/
theorem simulate_time_rounding_counterexample :
    BatteryModel.make 100 (7/10) (9/10) =
      .ok { capacity_wh := 100, eta := 9/10, initial_energy_wh := 70 } ∧
    ({ capacity_wh := 100, eta := 9/10, initial_energy_wh := 70 }
        : BatteryModel).simulate 0 (1/10^12) (2/10^12) =
      .ok { steps := [{ time_h := 0, energy_wh := 70, soc := 7/10,
                        delta_e_wh := 0 },
                      { time_h := 0, energy_wh := 70, soc := 7/10,
                        delta_e_wh := 0 },
                      { time_h := 0, energy_wh := 70, soc := 7/10,
                        delta_e_wh := 0 }],
            dt_h := 1/10^12, duration_h := 2/10^12, capacity_wh := 100,
            eta := 9/10, p_excess_w := 0 } ∧
    ¬ List.Chain' (fun a b => a.time_h < b.time_h)
      [({ time_h := 0, energy_wh := 70, soc := 7/10, delta_e_wh := 0 }
          : BatteryState),
       { time_h := 0, energy_wh := 70, soc := 7/10, delta_e_wh := 0 },
       { time_h := 0, energy_wh := 70, soc := 7/10, delta_e_wh := 0 }] := by
  refine ⟨make_m70, ?_, ?_⟩
  · refine (BatteryModel.simulate_ok_iff _ _ _ _ _).mpr
      ⟨by norm_num, by norm_num, by norm_num, ?_⟩
    have hfl : (⌊(2/10^12 : ℚ) / (1/10^12)⌋).toNat = 2 := by
      rw [show (2/10^12 : ℚ) / (1/10^12) = ((2 : ℤ) : ℚ) by norm_num,
        Int.floor_intCast]
      rfl
    rw [hfl, show (2 : ℕ) = 1 + 1 from rfl, BatteryModel.simSteps_succ,
      show (1 : ℕ) = 0 + 1 from rfl, BatteryModel.simSteps_succ,
      BatteryModel.simSteps_zero]
    have hcl : ({ capacity_wh := 100, eta := 9/10, initial_energy_wh := 70 }
        : BatteryModel).clamp (70 + 9/10 * 0 * (1/10^12)) = 70 := by
      unfold BatteryModel.clamp
      norm_num [min_def, max_def]
    have ht1 : roundTo10 ((0 : ℚ) + 1/10^12) = 0 := by
      rw [zero_add, roundTo10_eval _ 0 (by norm_num) (by norm_num)]
      norm_num
    have ht2 : roundTo10 ((0 : ℚ) + 1/10^12 + 1/10^12) = 0 := by
      rw [roundTo10_eval _ 0 (by norm_num) (by norm_num)]
      norm_num
    simp only [BatteryTimeSeries.mk.injEq, List.cons.injEq,
      BatteryState.mk.injEq, BatteryModel.to_soc, hcl, ht1, ht2]
    norm_num
  · intro hchain
    rcases hchain with - | ⟨hlt, -⟩
    exact absurd (show (0 : ℚ) < 0 from hlt) (by norm_num)

/-- C4 (scenario evaluation, exhibiting the clamped-delta divergence):
in the documented charge scenario (capacity 100 Wh, initial SoC 0.70,
eta 0.9, drive 104.19 W, timestep 1/60 h, duration 0.5 h) the step-0
snapshot is (70 Wh, SoC 0.70), snapshot 20 is full (100 Wh) at recorded
time 0.3333333333 h < 0.5 h — but snapshot 21, after the battery is
full, still records the unclamped `energyDelta = eta * P * dt =
31257/20000 ≠ 0`, because the code stores the pre-clamp increment. -/
theorem simulate_charge_scenario_clamped_delta :
    BatteryModel.make 100 (7/10) (9/10) = .ok m70 ∧
    (m70.simulate (10419/100) (1/60) (1/2)).map (fun ts => ts.steps[0]?) =
      .ok (some { time_h := 0, energy_wh := 70, soc := 7/10,
                  delta_e_wh := 0 }) ∧
    (m70.simulate (10419/100) (1/60) (1/2)).map (fun ts => ts.steps[20]?) =
      .ok (some { time_h := 3333333333/10^10, energy_wh := 100, soc := 1,
                  delta_e_wh := 31257/20000 }) ∧
    (m70.simulate (10419/100) (1/60) (1/2)).map (fun ts => ts.steps[21]?) =
      .ok (some { time_h := 7/20, energy_wh := 100, soc := 1,
                  delta_e_wh := 31257/20000 }) ∧
    (3333333333 : ℚ)/10^10 < 1/2 ∧ (31257 : ℚ)/20000 ≠ 0 := by
  have hn : (⌊(1/2 : ℚ) / (1/60)⌋).toNat = 30 := by
    rw [show (1/2 : ℚ) / (1/60) = ((30 : ℤ) : ℚ) by norm_num,
      Int.floor_intCast]
    rfl
  have hsim := (BatteryModel.simulate_ok_iff m70 (10419/100) (1/60)
    (1/2) _).mpr ⟨by norm_num, by norm_num, by norm_num, rfl⟩
  rw [hn, show m70.initial_energy_wh = 70 from rfl] at hsim
  have hnoclamp : ∀ k : ℕ, k < 19 →
      m70.clamp (70 + ((k : ℚ) + 1) * (m70.eta * (10419/100) * (1/60))) =
        70 + ((k : ℚ) + 1) * (m70.eta * (10419/100) * (1/60)) := by
    intro k hk
    have hk18 : (k : ℚ) ≤ 18 := by exact_mod_cast Nat.lt_succ_iff.mp hk
    have hk0 : (0 : ℚ) ≤ (k : ℚ) := Nat.cast_nonneg k
    rw [show m70.eta * (10419/100) * ((1 : ℚ)/60) = 31257/20000 by
      norm_num [m70]]
    unfold BatteryModel.clamp
    rw [show m70.capacity_wh = 100 from rfl]
    rw [min_eq_right (by linarith), max_eq_right (by linarith)]
  have hdrop : (m70.simSteps (10419/100) (1/60) 30 70 0).drop 19 =
      m70.simSteps (10419/100) (1/60) 11 (1993883/20000) (19/60) := by
    rw [BatteryModel.simSteps_drop m70 (10419/100) (1/60) 19 30 70 0
      (by norm_num) hnoclamp]
    norm_num [m70]
  have hstep20 : m70.simSteps (10419/100) (1/60) 11 (1993883/20000)
      (19/60) =
      { time_h := 3333333333/10^10, energy_wh := 100, soc := 1,
        delta_e_wh := 31257/20000 } ::
        m70.simSteps (10419/100) (1/60) 10 100 (1/3) := by
    rw [show (11 : ℕ) = 10 + 1 from rfl, BatteryModel.simSteps_succ]
    have hrt : roundTo10 ((19 : ℚ)/60 + 1/60) = 3333333333/10^10 := by
      rw [show (19 : ℚ)/60 + 1/60 = 1/3 by norm_num,
        roundTo10_eval _ 3333333333 (by norm_num) (by norm_num)]
      norm_num
    have hcl : m70.clamp (1993883/20000 + m70.eta * (10419/100) * (1/60))
        = 100 := by
      unfold BatteryModel.clamp
      norm_num [m70, min_def, max_def]
    rw [hrt, hcl]
    simp only [List.cons.injEq, BatteryState.mk.injEq, BatteryModel.to_soc]
    norm_num [m70]
  have hstep21 : m70.simSteps (10419/100) (1/60) 10 100 (1/3) =
      { time_h := 7/20, energy_wh := 100, soc := 1,
        delta_e_wh := 31257/20000 } ::
        m70.simSteps (10419/100) (1/60) 9 100 (7/20) := by
    conv_lhs => rw [show (10 : ℕ) = 9 + 1 from rfl]
    rw [BatteryModel.simSteps_succ]
    have hrt : roundTo10 ((1 : ℚ)/3 + 1/60) = 7/20 := by
      rw [show (1 : ℚ)/3 + 1/60 = 7/20 by norm_num,
        roundTo10_eq_self (7/20) 3500000000 (by norm_num)]
    have hcl : m70.clamp (100 + m70.eta * (10419/100) * (1/60)) = 100 := by
      unfold BatteryModel.clamp
      norm_num [m70, min_def, max_def]
    rw [hrt, hcl]
    simp only [List.cons.injEq, BatteryState.mk.injEq, BatteryModel.to_soc]
    norm_num [m70]
  have h19 : (m70.simSteps (10419/100) (1/60) 30 70 0)[19]? =
      some { time_h := 3333333333/10^10, energy_wh := 100, soc := 1,
             delta_e_wh := 31257/20000 } := by
    have hd := List.getElem?_drop (m70.simSteps (10419/100) (1/60) 30 70 0)
      19 0
    rw [hdrop, hstep20, List.getElem?_cons_zero] at hd
    simpa using hd.symm
  have h20 : (m70.simSteps (10419/100) (1/60) 30 70 0)[20]? =
      some { time_h := 7/20, energy_wh := 100, soc := 1,
             delta_e_wh := 31257/20000 } := by
    have hd := List.getElem?_drop (m70.simSteps (10419/100) (1/60) 30 70 0)
      19 1
    rw [hdrop, hstep20] at hd
    rw [show (1 : ℕ) = 0 + 1 from rfl, List.getElem?_cons_succ] at hd
    rw [hstep21, List.getElem?_cons_zero] at hd
    simpa using hd.symm
  refine ⟨?_, ?_, ?_, ?_, by norm_num, by norm_num⟩
  · rw [BatteryModel.make_ok_iff]
    refine ⟨by norm_num, by norm_num, by norm_num, ?_⟩
    simp only [m70, BatteryModel.mk.injEq]
    norm_num
  · rw [hsim]
    simp only [Except.map, List.getElem?_cons_zero, Option.some.injEq,
      BatteryState.mk.injEq, BatteryModel.to_soc]
    norm_num [m70]
  · rw [hsim]
    simp only [Except.map]
    rw [show (20 : ℕ) = 19 + 1 from rfl]
    rw [List.getElem?_cons_succ, h19]
  · rw [hsim]
    simp only [Except.map]
    rw [show (21 : ℕ) = 20 + 1 from rfl]
    rw [List.getElem?_cons_succ, h20]
